import Mathlib

/-!
Verification of the vee-eye editor core (src/vi.c) against its design
specification.  The C program is shallowly embedded: a text line (struct
line) is its character content, the doubly linked list of lines together
with the global line_count is a DocSt, and the editor globals (cursor,
mode, viewport, status) form an EdState.  C int values are embedded as
Int; pointers into the line list are embedded as 0-based indices; NULL is
Option.none.  The C code keeps each line's len field equal to
strlen(text) in every operation modelled here, so a line is embedded as
the list of its first len characters.  Screen output (escape sequences,
redraw calls) has no effect on the editor state and is not modelled;
update_status is modelled because it consumes the transient
custom_status message and determines what the status bar displays.
Paths that call clean_abort or oom terminate the process and are mapped
to Option.none (or are commented where they are unreachable).
-/

namespace VeeEye

/-- A text line: the character range text[0, len) of a struct line node. -/
abbrev Line := List Char

/-- Splice an element into a list at 0-based position n; models linking a
new struct line node into the doubly linked list.  Every use sites insert
after an existing node, so n is at most the list length; for uniformity an
oversized n appends at the end. -/
def insertAt : Nat → Line → List Line → List Line
  | 0, a, l => a :: l
  | _ + 1, a, [] => [a]
  | n + 1, a, x :: xs => x :: insertAt n a xs

/-- The document: the list of line nodes reachable from line_head together
with the global line_count (a C int). -/
structure DocSt where
  lines : List Line
  count : Int
  deriving DecidableEq

/-- The empty document: line_head == NULL, line_count == 0. -/
def empty_doc : DocSt := ⟨[], 0⟩

/-- walk_to_line (vi.c:285): walk the list to the requested 1-based line
number; the NULL result is none, a found node is its 0-based index. -/
def walk_to_line (num : Int) (lines : List Line) : Option Nat :=
  if num = 0 ∨ lines = [] then none
  else if 1 ≤ num ∧ num ≤ (lines.length : Int) then some (num - 1).toNat
  else none

/-- alloc_new_line (vi.c:311): allocate a new line after line number
start.  Returns none exactly when the C function returns NULL (start
beyond line_count); malloc failure calls oom() which aborts the process
and is not a return path.  new_text == NULL is Option.none.  With
start == 0 and a non-NULL head, prev_line is the head node itself, so
the new line is linked in after the first line; when the walk fails or
the buffer is empty, *buf_head is pointed at the new node (orphaning any
previous chain, which cannot occur in a consistent document). -/
def alloc_new_line (start : Int) (new_text : Option Line) (st : DocSt) :
    Option DocSt :=
  if st.count < start then none
  else
    let txt := new_text.getD []
    if 0 < start then
      match walk_to_line start st.lines with
      | some i => some ⟨insertAt (i + 1) txt st.lines, st.count + 1⟩
      | none => some ⟨[txt], st.count + 1⟩
    else
      match st.lines with
      | [] => some ⟨[txt], st.count + 1⟩
      | h0 :: t => some ⟨h0 :: txt :: t, st.count + 1⟩

/-- destroy_line (vi.c:400): destroy one line of the list.  The target
pointer is none for NULL, or the 0-based index of a live node.  The outer
Option is the process: none is the clean_abort path (line 1 with a NULL
next pointer while line_count > 1).  The Int is the C return value: -1
for a NULL target, 1 for the warn case (deleting the only, already empty
line), 0 otherwise.  A line with a predecessor (index > 0) is unlinked
and freed and line_count is decremented; line 1 is removed and its
successor promoted to head when line_count > 1; the sole remaining line
is instead emptied in place (len = 0, *text = NUL) with line_count
untouched. -/
def destroy_line (st : DocSt) (target : Option Nat) : Option (DocSt × Int) :=
  match target with
  | none => some (st, -1)
  | some i =>
    if i ≠ 0 then
      some (⟨st.lines.eraseIdx i, st.count - 1⟩, 0)
    else if 1 < st.count then
      if st.lines.length ≤ 1 then none
      else some (⟨st.lines.eraseIdx 0, st.count - 1⟩, 0)
    else
      match st.lines with
      | [] => none
      | l :: rest => some (⟨[] :: rest, st.count⟩, if l = [] then 1 else 0)

/-- fgets into the CHUNK_SIZE read buffer: consume at most fuel
characters of the input, stopping after a newline.  Returns the record
read and the remaining input.  load_file calls this with fuel 4095
(CHUNK_SIZE - 1). -/
def fgets_take : Nat → List Char → List Char × List Char
  | 0, rest => ([], rest)
  | _ + 1, [] => ([], [])
  | n + 1, c :: rest =>
    if c = '\n' then ([c], rest)
    else
      let (r, rem) := fgets_take n rest
      (c :: r, rem)

/-- Fuel-indexed record splitting; the fuel only serves termination and
any fuel at least the content length gives the loop's behaviour. -/
def split_records_fuel : Nat → List Char → List (List Char)
  | 0, _ => []
  | _ + 1, [] => []
  | f + 1, c :: rest =>
    let (r, rem) := fgets_take 4095 (c :: rest)
    r :: split_records_fuel f rem

/-- The sequence of records the load_file read loop obtains from a file's
content via fgets with a 4096-byte buffer. -/
def split_records (content : List Char) : List (List Char) :=
  split_records_fuel content.length content

/-- The per-record terminator strip of load_file (vi.c:949): remove the
final character of a record when it is a newline or carriage return. -/
def strip_term (r : List Char) : List Char :=
  match r.getLast? with
  | some c => if c = '\n' ∨ c = '\r' then r.dropLast else r
  | none => r

/-- The body of the load_file read loop: append each stripped record
after the previous one via alloc_new_line(0, buf, &line_count,
&cur_load_line).  pos is the index of cur_load_line, none when it is
NULL (empty buffer), in which case the first allocation becomes the new
head. -/
def load_records : List (List Char) → Option Nat → DocSt → DocSt
  | [], _, st => st
  | r :: rest, pos, st =>
    let t := strip_term r
    match pos with
    | none => load_records rest (some 0) ⟨[t], st.count + 1⟩
    | some p => load_records rest (some (p + 1)) ⟨insertAt (p + 1) t st.lines, st.count + 1⟩

/-- load_file (vi.c:913) on a file whose content was read successfully:
returns the updated document and the number of records loaded.  A
start_line beyond the buffer returns -1 with the document untouched; the
empty-name and fopen-failure returns (-2, -3) and mid-read I/O errors
also leave (a prefix of) the same loop behaviour and are not modelled
separately. -/
def load_file (content : List Char) (start_line : Int) (st : DocSt) :
    DocSt × Int :=
  if start_line ≠ 0 ∧ st.count < start_line then (st, -1)
  else
    let pos0 : Option Nat :=
      match walk_to_line start_line st.lines with
      | some i => some i
      | none => if st.lines = [] then none else some 0
    let recs := split_records content
    (load_records recs pos0 st, recs.length)

/-- save_file (vi.c:971): the byte sequence written out for a document:
each line's text followed by exactly one newline. -/
def save_file (lines : List Line) : List Char :=
  (lines.map (fun l => l ++ ['\n'])).flatten

/-- A file made of the given record bodies, each terminated by a single
newline. -/
def records_of (bodies : List (List Char)) : List Char :=
  (bodies.map (fun l => l ++ ['\n'])).flatten

/-- Spec-side definition, following the specification's words: a record
of a file is a maximal run of characters up to and including a line
terminator (newline or carriage return); a final unterminated run is
also a record. -/
def spec_rec_aux : List Char → List Char → List (List Char)
  | [], acc => if acc = [] then [] else [acc.reverse]
  | c :: rest, acc =>
    if c = '\n' ∨ c = '\r' then (acc.reverse ++ [c]) :: spec_rec_aux rest []
    else spec_rec_aux rest (c :: acc)

/-- Spec-side record decomposition of a file's content. -/
def spec_records (content : List Char) : List (List Char) :=
  spec_rec_aux content []

/-- Spec-side definition of the claimed round-trip output: the original
content with each record's terminator normalized to a newline. -/
def spec_normalize (content : List Char) : List Char :=
  ((spec_records content).map (fun r => r.dropLast ++ ['\n'])).flatten

/-- The claim's hypothesis on files, spec-side: every record ends in a
single line terminator (its last character is a terminator and no other
character of it is one). -/
def single_terminated (content : List Char) : Prop :=
  ∀ r ∈ spec_records content,
    (r.getLast? = some '\n' ∨ r.getLast? = some '\r') ∧
    ∀ x ∈ r.dropLast, x ≠ '\n' ∧ x ≠ '\r'

instance (content : List Char) : Decidable (single_terminated content) := by
  unfold single_terminated; infer_instance

/-- One document-level operation of the line store, as named by the
specification: a line insert (alloc_new_line on the main document), a
line delete (destroy_line; an index past the end names no node and is a
NULL target), or a file load. -/
inductive DocOp
  | insert (start : Int) (txt : Option Line)
  | delete (target : Option Nat)
  | load (content : List Char) (start_line : Int)

/-- Resolve a DocOp.delete index to a target pointer: an index past the
end of the list names no node and is the NULL target. -/
def norm_target (st : DocSt) (target : Option Nat) : Option Nat :=
  match target with
  | some i => if i < st.lines.length then some i else none
  | none => none

/-- Apply one operation; none is a process abort.  A NULL return from
alloc_new_line is a failure reported to the caller with the document
unchanged. -/
def apply_op (st : DocSt) : DocOp → Option DocSt
  | .insert start txt =>
    match alloc_new_line start txt st with
    | some st2 => some st2
    | none => some st
  | .delete target =>
    match destroy_line st (norm_target st target) with
    | some (st2, _) => some st2
    | none => none
  | .load content start_line => some (load_file content start_line st).1

/-- Run a sequence of document operations. -/
def run_ops (ops : List DocOp) (st : DocSt) : Option DocSt :=
  match ops with
  | [] => some st
  | op :: rest =>
    match apply_op st op with
    | some st2 => run_ops rest st2
    | none => none

/-- vi_mode values (vi.c:121). -/
def MODE_COMMAND : Int := 0

def MODE_INSERT : Int := 1

def MODE_REPLACE : Int := 2

/-- mode_string (vi.c:125). -/
def mode_string (m : Int) : String :=
  if m = 1 then "-- INSERT --" else if m = 2 then "-- REPLACE --" else ""

/-- The editor globals: the document, the cursor (cur_line, crsr_x,
crsr_y, line_shift, with cur_line_s embedded as the node at index
cur_line - 1), the mode, terminal dimensions, the transient
custom_status, the text last written to the status bar by update_status,
and the current file name. -/
structure EdState where
  doc : DocSt
  curLine : Int
  crsrX : Int
  crsrY : Int
  lineShift : Int
  mode : Int
  termCols : Int
  termRows : Int
  customStatus : String
  displayed : String
  curfile : String
  deriving DecidableEq

/-- The text of cur_line_s. -/
def cur_text (s : EdState) : Line := s.doc.lines.getD (s.curLine - 1).toNat []

/-- cur_line_s->len as a C int. -/
def cur_len (s : EdState) : Int := ((cur_text s).length : Int)

/-- Write through cur_line_s->text. -/
def set_cur_text (t : Line) (s : EdState) : EdState :=
  { s with doc :=
      { s.doc with lines := s.doc.lines.set (s.curLine - 1).toNat t } }

/-- update_status (vi.c:468): print custom_status, or the mode legend
when it is empty, on the status row, then clear custom_status. -/
def update_status (s : EdState) : EdState :=
  { s with
    displayed := if s.customStatus = "" then mode_string s.mode
                 else s.customStatus,
    customStatus := "" }

/-- line_shift_reduce (vi.c:264). -/
def line_shift_reduce (count : Int) (s : EdState) : EdState :=
  if count = 0 ∨ s.lineShift ≤ count then { s with lineShift := 0 }
  else { s with lineShift := s.lineShift - count }

/-- line_shift_increase (vi.c:275). -/
def line_shift_increase (count : Int) (s : EdState) : EdState :=
  { s with lineShift := s.lineShift + count }

/-- do_cursor_left (vi.c:819). -/
def do_cursor_left (s : EdState) : EdState :=
  if s.crsrX = 1 then
    if 0 < s.lineShift then line_shift_reduce 1 s else s
  else { s with crsrX := s.crsrX - 1 }

/-- do_cursor_right (vi.c:832).  The impossible term_cols branch raises
the oh_dear_god_no status. -/
def do_cursor_right (s : EdState) : EdState :=
  if cur_len s < s.crsrX then s
  else if s.crsrX = s.termCols then
    if s.termCols < cur_len s - s.lineShift then line_shift_increase 1 s
    else update_status { s with customStatus :=
      "THIS SHOULDN\x27T HAPPEN: cmd: l: term_cols check" }
  else
    if s.crsrX < cur_len s - s.lineShift ∨
        (0 < s.mode ∧ s.crsrX = cur_len s - s.lineShift) then
      { s with crsrX := s.crsrX + 1 }
    else s

/-- do_cursor_up (vi.c:856).  The second guard is the NULL check on
cur_line_s->prev: in the index embedding the previous node exists when
cur_line is at least 2 and cur_line_s is a live node.  The temporary
line_shift save/restore around the redraw has no net state effect. -/
def do_cursor_up (s : EdState) : EdState :=
  if s.curLine = 1 then s
  else if ¬ (2 ≤ s.curLine ∧ s.curLine ≤ (s.doc.lines.length : Int)) then s
  else
    let s1 := { s with curLine := s.curLine - 1,
                       crsrY := if 1 < s.crsrY then s.crsrY - 1 else s.crsrY }
    let s2 := if cur_len s1 < s1.crsrX then { s1 with crsrX := cur_len s1 }
              else s1
    { s2 with lineShift := 0 }

/-- do_cursor_down (vi.c:881).  The second guard is the NULL check on
cur_line_s->next. -/
def do_cursor_down (s : EdState) : EdState :=
  if s.curLine = s.doc.count then s
  else if ¬ (1 ≤ s.curLine ∧ s.curLine < (s.doc.lines.length : Int)) then s
  else
    let s1 := { s with curLine := s.curLine + 1,
                       crsrY := if s.crsrY < s.termRows then s.crsrY + 1
                                else s.crsrY }
    if cur_len s1 < s1.crsrX + s1.lineShift then
      let sh := if cur_len s1 ≤ s1.lineShift then cur_len s1 - 1
                else s1.lineShift
      let x := cur_len s1 - sh
      { s1 with lineShift := sh, crsrX := if x = 0 then 1 else x }
    else s1

/-- do_del_under_crsr (vi.c:573): delete the character at the logical
cursor position crsr_x + line_shift - 1.  Returns the C return value.
The len-- of the source always pairs with the removal of one character
here, the two being equal whenever the deletion index is in range, which
holds in every consistent state this development evaluates. -/
def do_del_under_crsr (left : Bool) (s : EdState) : EdState × Int :=
  if cur_len s = 0 then (s, 1)
  else if cur_len s + s.lineShift < s.crsrX ∧ left = false then (s, 1)
  else
    let len2 := cur_len s - 1
    let s1 := set_cur_text ((cur_text s).eraseIdx
      (s.crsrX + s.lineShift - 1).toNat) s
    let s2 := if len2 - s1.lineShift + (if 0 < s1.mode then 1 else 0) <
                s1.crsrX then { s1 with crsrX := s1.crsrX - 1 } else s1
    if s2.crsrX < 1 then
      let s3 := if 0 < s2.lineShift then line_shift_reduce 1 s2 else s2
      ({ s3 with crsrX := 1 }, 0)
    else (s2, 0)

/-- insert_char (vi.c:686): splice a character into the current line at
the logical cursor position; the replace-mode case body is empty.
Buffer reallocation only changes capacity and is invisible here. -/
def insert_char (c : Char) (s : EdState) : EdState :=
  if s.mode = 1 then
    let s1 := set_cur_text (List.insertIdx (s.crsrX + s.lineShift - 1).toNat
      c (cur_text s)) s
    if s.termCols < s1.crsrX then line_shift_increase 1 s1
    else { s1 with crsrX := s1.crsrX + 1 }
  else s

/-- go_to_start_of_next_line (vi.c:595). -/
def go_to_start_of_next_line (s : EdState) : EdState :=
  update_status { do_cursor_down s with lineShift := 0, crsrX := 1 }

/-- The backspace case of edit_mode (vi.c:728). -/
def edit_backspace (s : EdState) : EdState :=
  if 1 < s.crsrX then
    (do_del_under_crsr true { s with crsrX := s.crsrX - 1 }).1
  else s

/-- The newline case of edit_mode (vi.c:737): the tail of the current
line from the logical cursor position becomes a new line allocated
immediately after it, the current line is truncated to the split point
when the tail is non-empty, and the cursor moves to the start of the
next line.  A NULL allocation calls oom() which aborts; with line_count
consistent the allocation cannot fail, and that path returns the state
unchanged here. -/
def edit_newline (s : EdState) : EdState :=
  let t := cur_text s
  let k := (s.lineShift + s.crsrX - 1).toNat
  let frag := t.drop k
  match alloc_new_line s.curLine (some frag) s.doc with
  | none => s
  | some d =>
    let s1 := { s with doc := d }
    let s2 := if frag = [] then s1 else set_cur_text (t.take k) s1
    go_to_start_of_next_line s2

/-- The escape case of edit_mode (vi.c:754, end_edit_mode at 775): step
the cursor left if past column 1 and return to command mode.  The
update_status here folds the end_edit_mode one with the end_cmd one that
follows in do_cmd; with custom_status empty both write the command-mode
legend. -/
def edit_escape (s : EdState) : EdState :=
  update_status { s with
    crsrX := if 1 < s.crsrX then s.crsrX - 1 else s.crsrX,
    mode := MODE_COMMAND }

/-- A printable or rejected byte in edit_mode (vi.c:762): characters
outside 32..127 raise a status message, others are inserted. -/
def edit_key_char (c : Char) (s : EdState) : EdState :=
  if c.toNat < 32 ∨ 127 < c.toNat then
    update_status { s with customStatus :=
      "Invalid char entered: " ++ toString c.toNat }
  else
    update_status (insert_char c s)

/-- The repeat-count clamp of do_cmd (vi.c:1073): num_times = atoi(...)
raised to at least 1. -/
def clamp_count (n : Int) : Int := if n < 1 then 1 else n

/-- Command h with the end_cmd status refresh (vi.c:1114, 1202). -/
def cmd_key_h (s : EdState) : EdState := update_status (do_cursor_left s)

/-- Command j with the end_cmd status refresh (vi.c:1117). -/
def cmd_key_j (s : EdState) : EdState := update_status (do_cursor_down s)

/-- Command k with the end_cmd status refresh (vi.c:1120). -/
def cmd_key_k (s : EdState) : EdState := update_status (do_cursor_up s)

/-- Command l with the end_cmd status refresh (vi.c:1123). -/
def cmd_key_l (s : EdState) : EdState := update_status (do_cursor_right s)

/-- Command i (vi.c:1109): enter insert mode; edit_mode keystrokes are
separate steps. -/
def cmd_key_i (s : EdState) : EdState :=
  update_status { s with mode := MODE_INSERT }

/-- Command a (vi.c:1105): insert mode with the cursor first moved
right, falling through to the i case. -/
def cmd_key_a (s : EdState) : EdState :=
  update_status (do_cursor_right { s with mode := MODE_INSERT })

/-- Command o (vi.c:1126): open an empty line after the current one,
move to its start, and enter insert mode. -/
def cmd_key_o (s : EdState) : EdState :=
  match alloc_new_line s.curLine none s.doc with
  | none => s
  | some d =>
    update_status
      { go_to_start_of_next_line { s with doc := d } with mode := MODE_INSERT }

/-- destroy_line applied through the editor state; the clean_abort
branch ends the process and cannot occur in a consistent document. -/
def destroy_line_ed (i : Nat) (s : EdState) : EdState :=
  match destroy_line s.doc (some i) with
  | some (d, _) => { s with doc := d }
  | none => s

/-- The dd delete loop of do_cmd (vi.c:1083): delete num_times lines
starting at the cursor, stopping at the last line; returns the loop
counter i at exit. -/
def dd_loop : Nat → EdState → EdState × Nat
  | 0, s => (s, 0)
  | i + 1, s =>
    if s.curLine = s.doc.count then
      if 1 < s.curLine then
        let s1 := do_cursor_up s
        (destroy_line_ed ((s1.curLine - 1).toNat + 1) s1, i + 1)
      else
        let s1 := destroy_line_ed (s.curLine - 1).toNat s
        ({ s1 with crsrX := 0, lineShift := 0 }, i + 1)
    else
      dd_loop i (destroy_line_ed (s.curLine - 1).toNat s)

/-- The dd command body (vi.c:1078): run the delete loop and report the
deletions whenever the loop counter fell below the request. -/
def do_dd (n : Int) (s : EdState) : EdState :=
  let nt := (clamp_count n).toNat
  let r := dd_loop nt s
  if r.2 < nt then
    { r.1 with customStatus :=
        "Deleted " ++ toString (nt - r.2) ++ " lines at " ++
          toString r.1.curLine }
  else r.1

/-- Command dd with the end_cmd status refresh. -/
def cmd_dd (n : Int) (s : EdState) : EdState := update_status (do_dd n s)

/-- The x delete loop (vi.c:1137). -/
def x_loop : Nat → EdState → EdState
  | 0, s => s
  | i + 1, s =>
    let r := do_del_under_crsr false s
    if r.2 = 1 then r.1 else x_loop i r.1

/-- Command x with count and the end_cmd status refresh. -/
def cmd_x (n : Int) (s : EdState) : EdState :=
  update_status (x_loop (clamp_count n).toNat s)

/-- The X delete loop (vi.c:1143). -/
def bigx_loop : Nat → EdState → EdState
  | 0, s => s
  | i + 1, s =>
    if s.crsrX = 1 then s
    else
      let r := do_del_under_crsr true { s with crsrX := s.crsrX - 1 }
      if r.2 = 1 then r.1 else bigx_loop i r.1

/-- Command X with count and the end_cmd status refresh. -/
def cmd_bigx (n : Int) (s : EdState) : EdState :=
  update_status (bigx_loop (clamp_count n).toNat s)

/-- Command # (vi.c:1077): a screen scroll with no editor state
effect beyond the status refresh. -/
def cmd_key_hash (s : EdState) : EdState := update_status s

/-- Command p (vi.c:1134). -/
def cmd_key_p (s : EdState) : EdState :=
  update_status { s with customStatus :=
    "\x27put\x27 command not yet supported" }

/-- An unrecognized command key (vi.c:1196). -/
def cmd_unknown (c : Char) (s : EdState) : EdState :=
  update_status { s with customStatus :=
    "Unknown key " ++ toString c.toNat }

/-- A cancelled command: ESC, an ignored control code, or d followed by
a key other than d (vi.c:1061, 1063, 1081). -/
def cmd_cancel (s : EdState) : EdState := update_status s

/-- A colon command cancelled or empty (vi.c:1167). -/
def colon_cancel (s : EdState) : EdState := update_status s

/-- Colon wq with no file name available (vi.c:1173): the save fails
with a status message and control returns to the command loop. -/
def colon_wq_nofile (s : EdState) : EdState :=
  update_status { s with customStatus :=
    "Cannot save: no file name specified" }

/-- Colon w with no name given and none stored (vi.c:1185). -/
def colon_w_nofile (s : EdState) : EdState :=
  update_status { s with customStatus :=
    "Cannot save: no file name specified" }

/-- Colon w whose save_file call failed in the filesystem
(vi.c:1189). -/
def colon_w_error (s : EdState) : EdState :=
  update_status { s with customStatus := "Error while saving file" }

/-- An unrecognized colon command (vi.c:1194). -/
def colon_unknown (s : EdState) : EdState := update_status s

/-- The editor state right after main's initialization (vi.c:1232):
cur_line 1, cursor at 1,1 with no shift, command mode, and the initial
status drawn by the first update_status. -/
def base_state (cols rows : Int) (d : DocSt) (file status : String) :
    EdState :=
  { doc := d, curLine := 1, crsrX := 1, crsrY := 1, lineShift := 0,
    mode := MODE_COMMAND, termCols := cols, termRows := rows,
    customStatus := "", displayed := status, curfile := file }

/-- One keystroke dispatch of the interpreter: a do_cmd command in
command mode or one edit_mode key in insert mode.  The colon commands
that exit the process (q, q!, and a wq or w whose save succeeded) have
no successor state.  The count n of a counted command is the atoi value
of the accumulated digit prefix. -/
inductive Step : EdState → EdState → Prop
  | key_hash {s : EdState} : s.mode = 0 → Step s (cmd_key_hash s)
  | key_dd {s : EdState} (n : Int) : s.mode = 0 → Step s (cmd_dd n s)
  | key_a {s : EdState} : s.mode = 0 → Step s (cmd_key_a s)
  | key_i {s : EdState} : s.mode = 0 → Step s (cmd_key_i s)
  | key_h {s : EdState} : s.mode = 0 → Step s (cmd_key_h s)
  | key_j {s : EdState} : s.mode = 0 → Step s (cmd_key_j s)
  | key_k {s : EdState} : s.mode = 0 → Step s (cmd_key_k s)
  | key_l {s : EdState} : s.mode = 0 → Step s (cmd_key_l s)
  | key_o {s : EdState} : s.mode = 0 → Step s (cmd_key_o s)
  | key_p {s : EdState} : s.mode = 0 → Step s (cmd_key_p s)
  | key_x {s : EdState} (n : Int) : s.mode = 0 → Step s (cmd_x n s)
  | key_bigx {s : EdState} (n : Int) : s.mode = 0 → Step s (cmd_bigx n s)
  | key_unknown {s : EdState} (c : Char) : s.mode = 0 →
      Step s (cmd_unknown c s)
  | key_cancel {s : EdState} : s.mode = 0 → Step s (cmd_cancel s)
  | colon_none {s : EdState} : s.mode = 0 → Step s (colon_cancel s)
  | colon_wq_fail {s : EdState} : s.mode = 0 → s.curfile = "" →
      Step s (colon_wq_nofile s)
  | colon_w_fail {s : EdState} : s.mode = 0 → s.curfile = "" →
      Step s (colon_w_nofile s)
  | colon_w_err {s : EdState} : s.mode = 0 → Step s (colon_w_error s)
  | colon_other {s : EdState} : s.mode = 0 → Step s (colon_unknown s)
  | ed_char {s : EdState} (c : Char) : s.mode = 1 →
      Step s (edit_key_char c s)
  | ed_backspace {s : EdState} : s.mode = 1 → Step s (edit_backspace s)
  | ed_newline {s : EdState} : s.mode = 1 → Step s (edit_newline s)
  | ed_escape {s : EdState} : s.mode = 1 → Step s (edit_escape s)

/-- The states the editor can be in: one of main's three start states
(empty buffer, missing file, or a successfully loaded non-empty file)
followed by any number of keystroke dispatches. -/
inductive Reachable : EdState → Prop
  | start_empty (cols rows : Int) : 0 < cols → 0 < rows →
      Reachable (base_state cols rows ⟨[[]], 1⟩ "" "")
  | start_new (cols rows : Int) (name : String) : 0 < cols → 0 < rows →
      name ≠ "" →
      Reachable (base_state cols rows ⟨[[]], 1⟩ name
        ("\x27" ++ name ++ "\x27 [NEW FILE]"))
  | start_load (cols rows : Int) (name : String) (content : List Char) :
      0 < cols → 0 < rows → name ≠ "" → content ≠ [] →
      Reachable (base_state cols rows (load_file content 0 empty_doc).1 name
        ("Read " ++ toString (load_file content 0 empty_doc).2 ++
          " lines from \x27" ++ name ++ "\x27"))
  | step {s t : EdState} : Reachable s → Step s t → Reachable t

/-- The cursor invariant exactly as the specification states it: column
plus shift never exceeds the current line length, plus one outside
command mode. -/
def cursor_spec_inv (s : EdState) : Prop :=
  s.crsrX + s.lineShift ≤ cur_len s +
    (if s.mode = MODE_COMMAND then 0 else 1)

instance (s : EdState) : Decidable (cursor_spec_inv s) := by
  unfold cursor_spec_inv; infer_instance

/-- The line-count consistency predicate: the reported count equals the
number of lines reachable from the head. -/
def count_ok (st : DocSt) : Prop := st.count = st.lines.length

instance (st : DocSt) : Decidable (count_ok st) := by
  unfold count_ok; infer_instance

/-- The length of the line above the current one, the destination of a
completed do_cursor_up. -/
def up_dest_len (s : EdState) : Int :=
  ((s.doc.lines.getD (s.curLine - 1 - 1).toNat []).length : Int)

/-- The length of the line below the current one, the destination of a
completed do_cursor_down. -/
def down_dest_len (s : EdState) : Int :=
  ((s.doc.lines.getD (s.curLine + 1 - 1).toNat []).length : Int)

/-- The five-line buffer of scenario E with the cursor on line 1. -/
def scenario_e_state : EdState :=
  base_state 80 24
    ⟨[['o', 'n', 'e'], ['t', 'w', 'o'], ['3'], ['4'], ['5']], 5⟩ "" ""

/-- A one-line buffer "abc" with the cursor at column 1. -/
def char_delete_state : EdState :=
  base_state 80 24 ⟨[['a', 'b', 'c']], 1⟩ "" ""

theorem insertAt_length (n : Nat) (a : Line) (l : List Line) :
    (insertAt n a l).length = l.length + 1 := by
  induction l generalizing n with
  | nil => cases n <;> rfl
  | cons x xs ih =>
    cases n with
    | zero => rfl
    | succ m => simp [insertAt, ih]

theorem insertAt_append (a : Line) (l : List Line) :
    insertAt l.length a l = l ++ [a] := by
  induction l with
  | nil => rfl
  | cons x xs ih => simp [insertAt, ih]

theorem fgets_take_rest_le (n : Nat) (l : List Char) :
    (fgets_take n l).2.length ≤ l.length := by
  induction n generalizing l with
  | zero => simp [fgets_take]
  | succ m ih =>
    cases l with
    | nil => simp [fgets_take]
    | cons c rest =>
      by_cases h : c = '\n'
      · simp [fgets_take, h]
      · simpa [fgets_take, h] using Nat.le_succ_of_le (ih rest)

theorem fgets_take_rest_lt (c : Char) (rest : List Char) :
    (fgets_take 4095 (c :: rest)).2.length ≤ rest.length := by
  by_cases h : c = '\n'
  · simp [fgets_take, h]
  · simpa [fgets_take, h] using fgets_take_rest_le 4094 rest

theorem split_records_fuel_nil (f : Nat) : split_records_fuel f [] = [] := by
  cases f <;> rfl

theorem split_records_fuel_congr (f1 : Nat) :
    ∀ (f2 : Nat) (c : List Char), c.length ≤ f1 → c.length ≤ f2 →
      split_records_fuel f1 c = split_records_fuel f2 c := by
  induction f1 with
  | zero =>
    intro f2 c h1 _
    have : c = [] := by
      cases c with
      | nil => rfl
      | cons x xs => simp at h1
    simp [this, split_records_fuel_nil]
  | succ g1 ih =>
    intro f2 c h1 h2
    cases c with
    | nil => simp [split_records_fuel_nil]
    | cons x xs =>
      cases f2 with
      | zero => simp at h2
      | succ g2 =>
        simp only [split_records_fuel]
        have hrem := fgets_take_rest_lt x xs
        have h1' : (fgets_take 4095 (x :: xs)).2.length ≤ g1 := by
          simp only [List.length_cons] at h1; omega
        have h2' : (fgets_take 4095 (x :: xs)).2.length ≤ g2 := by
          simp only [List.length_cons] at h2; omega
        rw [ih g2 _ h1' h2']

theorem split_records_cons (c : Char) (rest : List Char) :
    split_records (c :: rest) =
      (fgets_take 4095 (c :: rest)).1 ::
        split_records ((fgets_take 4095 (c :: rest)).2) := by
  unfold split_records
  simp only [List.length_cons, split_records_fuel]
  rw [split_records_fuel_congr rest.length _ _ (fgets_take_rest_lt c rest)
    (le_refl _)]

theorem load_records_count_ok (recs : List (List Char)) (pos : Option Nat)
    (st : DocSt) (hpos : pos = none → st.lines = []) (h : count_ok st) :
    count_ok (load_records recs pos st) := by
  induction recs generalizing pos st with
  | nil => simpa [load_records] using h
  | cons r rest ih =>
    cases pos with
    | none =>
      have hl := hpos rfl
      apply ih (some 0)
      · intro hc; exact absurd hc (by simp)
      · simp [count_ok] at h ⊢
        simp [hl] at h
        omega
    | some p =>
      apply ih (some (p + 1))
      · intro hc; exact absurd hc (by simp)
      · simp [count_ok, insertAt_length] at h ⊢
        omega

theorem alloc_preserves_count_ok (start : Int) (txt : Option Line)
    (st st2 : DocSt) (h : count_ok st)
    (ha : alloc_new_line start txt st = some st2) : count_ok st2 := by
  unfold alloc_new_line at ha
  by_cases hc : st.count < start
  · simp [hc] at ha
  · simp only [hc, if_false] at ha
    by_cases hs : 0 < start
    · simp only [hs, if_true] at ha
      unfold walk_to_line at ha
      by_cases h0 : start = 0 ∨ st.lines = []
      · rcases h0 with h0 | h0
        · omega
        · simp only [h0, or_true, if_true] at ha
          simp only [count_ok] at h
          simp only [h0, List.length_nil] at h
          omega
      · simp only [h0, if_false] at ha
        by_cases h1 : 1 ≤ start ∧ start ≤ (st.lines.length : Int)
        · simp only [h1, if_true] at ha
          cases ha
          simp [count_ok, insertAt_length] at h ⊢
          omega
        · simp only [h1, if_false] at ha
          simp only [count_ok] at h
          omega
    · simp only [hs, if_false] at ha
      cases hl : st.lines with
      | nil =>
        simp only [hl] at ha
        cases ha
        simp only [count_ok, hl, List.length_nil] at h ⊢
        simp [h]
      | cons h0 t =>
        simp only [hl] at ha
        cases ha
        simp only [count_ok, hl] at h ⊢
        simp only [List.length_cons] at h ⊢
        push_cast at h ⊢
        omega

theorem destroy_preserves_count_ok (st st2 : DocSt) (t : Option Nat)
    (hvalid : ∀ i, t = some i → i < st.lines.length)
    (h : count_ok st) (r : Int)
    (hd : destroy_line st t = some (st2, r)) : count_ok st2 := by
  cases t with
  | none =>
    simp only [destroy_line, Option.some.injEq, Prod.mk.injEq] at hd
    rw [← hd.1]; exact h
  | some i =>
    simp only [destroy_line] at hd
    have hi := hvalid i rfl
    by_cases h0 : i ≠ 0
    · rw [if_pos h0] at hd
      simp only [Option.some.injEq, Prod.mk.injEq] at hd
      rw [← hd.1]
      simp only [count_ok] at h ⊢
      rw [List.length_eraseIdx]
      simp only [hi, if_true]
      omega
    · rw [if_neg h0] at hd
      by_cases h1 : 1 < st.count
      · rw [if_pos h1] at hd
        have hlen : ¬ st.lines.length ≤ 1 := by
          simp only [count_ok] at h; omega
        rw [if_neg hlen] at hd
        simp only [Option.some.injEq, Prod.mk.injEq] at hd
        rw [← hd.1]
        simp only [count_ok] at h ⊢
        rw [List.length_eraseIdx]
        have hpos : 0 < st.lines.length := by omega
        simp only [hpos, if_true]
        omega
      · rw [if_neg h1] at hd
        cases hl : st.lines with
        | nil => simp [hl] at hi
        | cons l rest =>
          rw [hl] at hd
          simp only [Option.some.injEq, Prod.mk.injEq] at hd
          rw [← hd.1]
          simp only [count_ok, hl] at h ⊢
          simpa using h

/-- C3: after any sequence of line-insert (alloc_new_line), line-delete
(destroy_line) and file-load (load_file) operations starting from the
empty document, the global line_count equals the number of line nodes
reachable from line_head. -/
theorem line_count_matches_reachable (ops : List DocOp) (st : DocSt)
    (h : run_ops ops empty_doc = some st) : st.count = st.lines.length := by
  suffices hgen : ∀ (ops : List DocOp) (st0 st1 : DocSt), count_ok st0 →
      run_ops ops st0 = some st1 → count_ok st1 by
    exact hgen ops empty_doc st (by simp [count_ok, empty_doc]) h
  intro ops
  induction ops with
  | nil =>
    intro st0 st1 h0 hr
    unfold run_ops at hr
    cases hr
    exact h0
  | cons op rest ih =>
    intro st0 st1 h0 hr
    unfold run_ops at hr
    cases hop : apply_op st0 op with
    | none => rw [hop] at hr; cases hr
    | some stm =>
      rw [hop] at hr
      apply ih stm st1 _ hr
      cases op with
      | insert start txt =>
        simp only [apply_op] at hop
        cases ha : alloc_new_line start txt st0 with
        | none =>
          rw [ha] at hop
          simp only [Option.some.injEq] at hop
          rw [← hop]; exact h0
        | some st2 =>
          rw [ha] at hop
          simp only [Option.some.injEq] at hop
          rw [← hop]
          exact alloc_preserves_count_ok start txt st0 st2 h0 ha
      | delete target =>
        simp only [apply_op] at hop
        cases hd : destroy_line st0 (norm_target st0 target) with
        | none => rw [hd] at hop; cases hop
        | some p =>
          rw [hd] at hop
          simp only [Option.some.injEq] at hop
          rw [← hop]
          refine destroy_preserves_count_ok st0 p.1 _ ?_ h0 p.2 (by rw [hd])
          intro i hi
          cases target with
          | none => simp [norm_target] at hi
          | some j =>
            simp only [norm_target] at hi
            by_cases hj : j < st0.lines.length
            · rw [if_pos hj] at hi
              simp only [Option.some.injEq] at hi
              rw [← hi]; exact hj
            · rw [if_neg hj] at hi; cases hi
      | load content start_line =>
        simp only [apply_op, Option.some.injEq] at hop
        rw [← hop]
        unfold load_file
        by_cases hsl : start_line ≠ 0 ∧ st0.count < start_line
        · rw [if_pos hsl]; exact h0
        · rw [if_neg hsl]
          apply load_records_count_ok
          · intro hp
            cases hwv : walk_to_line start_line st0.lines with
            | none =>
              simp only [hwv] at hp
              by_cases hn : st0.lines = []
              · exact hn
              · rw [if_neg hn] at hp; cases hp
            | some i => simp only [hwv] at hp; cases hp
          · exact h0

/-- C1: destroy_line on the sole remaining line of a consistent document
keeps the node in the list, emptying its text in place, and the line
count stays 1; destroying any line of a longer document removes the node
and decrements the count, so the document never becomes empty. -/
theorem destroy_line_sole_line_empties (st : DocSt) (i : Nat)
    (hwf : count_ok st) (hi : i < st.lines.length) :
    (st.lines.length = 1 →
      ∃ r, destroy_line st (some i) = some (⟨[[]], 1⟩, r)) ∧
    (1 < st.lines.length →
      destroy_line st (some i) = some (⟨st.lines.eraseIdx i, st.count - 1⟩, 0) ∧
      (st.lines.eraseIdx i).length + 1 = st.lines.length ∧
      st.lines.eraseIdx i ≠ []) := by
  unfold count_ok at hwf
  constructor
  · intro hone
    have hi0 : i = 0 := by omega
    subst hi0
    cases hl : st.lines with
    | nil => simp [hl] at hone
    | cons l rest =>
      have hrest : rest = [] := by
        rw [hl] at hone; simpa using hone
      subst hrest
      have hcnt : st.count = 1 := by rw [hwf, hl]; rfl
      refine ⟨if l = [] then 1 else 0, ?_⟩
      simp only [destroy_line]
      rw [if_neg (by simp : ¬ (0 : Nat) ≠ 0),
        if_neg (by omega : ¬ 1 < st.count), hl, hcnt]
  · intro hmany
    have hcnt : 1 < st.count := by omega
    have hlen : ¬ st.lines.length ≤ 1 := by omega
    have herase : (st.lines.eraseIdx i).length + 1 = st.lines.length := by
      rw [List.length_eraseIdx]
      simp only [hi, if_true]
      omega
    refine ⟨?_, herase, ?_⟩
    · by_cases h0 : i ≠ 0
      · simp only [destroy_line]
        rw [if_pos h0]
      · have hi0 : i = 0 := by omega
        subst hi0
        simp only [destroy_line]
        rw [if_neg h0, if_pos hcnt, if_neg hlen]
    · intro hnil
      rw [hnil] at herase
      simp at herase
      omega

/-- Witness for C1: deleting a line of a two-line document removes it;
deleting the sole line of a one-line document empties it in place. -/
theorem destroy_line_sole_line_empties_witness :
    (∃ r, destroy_line ⟨[['a']], 1⟩ (some 0) = some (⟨[[]], 1⟩, r)) ∧
    destroy_line ⟨[['a'], ['b']], 2⟩ (some 1) = some (⟨[['a']], 1⟩, 0) := by
  constructor
  · exact (destroy_line_sole_line_empties ⟨[['a']], 1⟩ 0 (by decide)
      (by decide)).1 (by decide)
  · have h := ((destroy_line_sole_line_empties ⟨[['a'], ['b']], 2⟩ 1
      (by decide) (by decide)).2 (by decide)).1
    simpa using h

/-- C2 counterexample: alloc_new_line with position 0 on the non-empty
document containing the single line "a" links the new line "b" in after
the head, producing the list a, b — not b, a as the claim's "before the
first line / at head" reading requires, so the new line does not become
the first line. -/
theorem alloc_new_line_position_zero_after_head :
    alloc_new_line 0 (some ['b']) ⟨[['a']], 1⟩ = some ⟨[['a'], ['b']], 2⟩ ∧
    alloc_new_line 0 (some ['b']) ⟨[['a']], 1⟩ ≠ some ⟨[['b'], ['a']], 2⟩ := by
  constructor <;> decide

/-- C2 amended: alloc_new_line with position 0 never fails when the line
count is non-negative (allocation failure aborts the process instead of
returning), increments the count by exactly one, and links the new line
in at the head only when the document is empty; on a non-empty document
the new line is inserted immediately after the first line. -/
theorem alloc_new_line_position_zero_spec (txt : Option Line) (st : DocSt)
    (h : 0 ≤ st.count) :
    alloc_new_line 0 txt st =
      some ⟨match st.lines with
            | [] => [txt.getD []]
            | h0 :: t => h0 :: txt.getD [] :: t, st.count + 1⟩ := by
  unfold alloc_new_line
  rw [if_neg (by omega : ¬ st.count < 0), if_neg (by omega : ¬ (0 : Int) < 0)]
  cases st.lines with
  | nil => rfl
  | cons h0 t => rfl

/-- Witness for C2's amended statement on a concrete one-line document. -/
theorem alloc_new_line_position_zero_spec_witness :
    alloc_new_line 0 (some ['c']) ⟨[['a']], 1⟩ = some ⟨[['a'], ['c']], 2⟩ := by
  have h := alloc_new_line_position_zero_spec (some ['c']) ⟨[['a']], 1⟩
    (by decide)
  simpa using h

/-- Witness for C3 at a concrete run: one insert, one two-record load and
one delete from the empty document. -/
theorem line_count_matches_reachable_witness :
    (⟨[['h', 'i'], ['y', 'o']], 2⟩ : DocSt).count =
      (⟨[['h', 'i'], ['y', 'o']], 2⟩ : DocSt).lines.length :=
  line_count_matches_reachable
    [.insert 0 none, .load ['h', 'i', '\n', 'y', 'o', '\n'] 1, .delete (some 0)]
    ⟨[['h', 'i'], ['y', 'o']], 2⟩ (by decide)

theorem fgets_take_no_newline (l : List Char) :
    ∀ fuel : Nat, '\n' ∉ l → l.length ≤ fuel → fgets_take fuel l = (l, []) := by
  induction l with
  | nil => intro fuel _ _; cases fuel <;> rfl
  | cons c rest ih =>
    intro fuel hn hl
    cases fuel with
    | zero => simp at hl
    | succ f =>
      have hc : ¬ c = '\n' := by
        intro hc; exact hn (by simp [hc])
      have hrest : '\n' ∉ rest := fun hm => hn (by simp [hm])
      have hlen : rest.length ≤ f := by simp at hl; omega
      simp [fgets_take, hc, ih f hrest hlen]

theorem fgets_take_newline (b : List Char) :
    ∀ (rest : List Char) (fuel : Nat), '\n' ∉ b → b.length < fuel →
      fgets_take fuel (b ++ '\n' :: rest) = (b ++ ['\n'], rest) := by
  induction b with
  | nil =>
    intro rest fuel _ hl
    cases fuel with
    | zero => simp at hl
    | succ f => simp [fgets_take]
  | cons c bs ih =>
    intro rest fuel hn hl
    cases fuel with
    | zero => simp at hl
    | succ f =>
      have hc : ¬ c = '\n' := by
        intro hc; exact hn (by simp [hc])
      have hbs : '\n' ∉ bs := fun hm => hn (by simp [hm])
      have hlen : bs.length < f := by simp at hl; omega
      simp [fgets_take, hc, ih rest f hbs hlen]

theorem split_records_record (b rest : List Char) (hn : '\n' ∉ b)
    (hl : b.length ≤ 4094) :
    split_records (b ++ '\n' :: rest) = (b ++ ['\n']) :: split_records rest := by
  have hf := fgets_take_newline b rest 4095 hn (by omega)
  cases hb : b with
  | nil =>
    rw [List.nil_append, split_records_cons]
    rw [hb] at hf
    simp only [List.nil_append] at hf
    rw [hf]
    simp
  | cons x xs =>
    rw [hb] at hf
    have hcons : (x :: xs) ++ '\n' :: rest = x :: (xs ++ '\n' :: rest) := rfl
    rw [hcons, split_records_cons, ← hcons, hf]

theorem split_records_unterminated (l : List Char) (hne : l ≠ [])
    (hn : '\n' ∉ l) (hl : l.length ≤ 4095) :
    split_records l = [l] := by
  have hf := fgets_take_no_newline l 4095 hn (by omega)
  obtain ⟨x, xs, rfl⟩ := List.exists_cons_of_ne_nil hne
  rw [split_records_cons, hf]
  simp [split_records, split_records_fuel_nil]

theorem split_records_flat (bodies : List (List Char)) (tail : List Char)
    (h : ∀ b ∈ bodies, '\n' ∉ b ∧ b.length ≤ 4094) :
    split_records (records_of bodies ++ tail) =
      bodies.map (fun l => l ++ ['\n']) ++ split_records tail := by
  induction bodies with
  | nil => simp [records_of]
  | cons b rest ih =>
    have hb := h b (by simp)
    have hrest : ∀ x ∈ rest, '\n' ∉ x ∧ x.length ≤ 4094 :=
      fun x hx => h x (by simp [hx])
    have hshape : records_of (b :: rest) ++ tail =
        b ++ '\n' :: (records_of rest ++ tail) := by
      simp [records_of, List.append_assoc]
    rw [hshape, split_records_record b _ hb.1 hb.2, ih hrest]
    simp

theorem strip_term_concat (b : List Char) (c : Char)
    (hc : c = '\n' ∨ c = '\r') : strip_term (b ++ [c]) = b := by
  unfold strip_term
  rw [List.getLast?_concat]
  simp only [hc, if_true]
  exact List.dropLast_concat

theorem load_records_append (recs : List (List Char)) :
    ∀ (ls : List Line) (k : Int), ls ≠ [] →
      load_records recs (some (ls.length - 1)) ⟨ls, k⟩ =
        ⟨ls ++ recs.map strip_term, k + recs.length⟩ := by
  induction recs with
  | nil => intro ls k _; simp [load_records]
  | cons r rest ih =>
    intro ls k hne
    have hpos : 0 < ls.length := List.length_pos.mpr hne
    have hins : ls.length - 1 + 1 = ls.length := by omega
    simp only [load_records, hins, insertAt_append]
    have hne2 : ls ++ [strip_term r] ≠ [] := by simp
    have hlen2 : (ls ++ [strip_term r]).length - 1 = ls.length := by
      simp
    rw [show ls.length = (ls ++ [strip_term r]).length - 1 from hlen2.symm,
      ih (ls ++ [strip_term r]) (k + 1) hne2]
    simp only [List.map_cons, List.append_assoc, List.singleton_append,
      List.length_cons]
    congr 1
    push_cast
    ring

theorem load_file_empty (content : List Char) :
    (load_file content 0 empty_doc).1 =
      ⟨(split_records content).map strip_term,
        ((split_records content).length : Int)⟩ := by
  have hstep : (load_file content 0 empty_doc).1 =
      load_records (split_records content) none empty_doc := by
    simp [load_file, walk_to_line, empty_doc]
  rw [hstep]
  cases hr : split_records content with
  | nil => simp [load_records, empty_doc]
  | cons r rest =>
    simp only [load_records, empty_doc]
    have h1 : ([strip_term r] : List Line) ≠ [] := by simp
    have h0 : (0 : Nat) = ([strip_term r] : List Line).length - 1 := by simp
    rw [h0, load_records_append rest [strip_term r] (0 + 1) h1]
    simp only [List.map_cons, List.singleton_append, List.length_cons]
    congr 1
    push_cast
    ring

/-- C8 counterexample: the file consisting of the two single-terminator
records "a\r" and "b\n" satisfies the claim's hypothesis, yet loading
and saving it yields the file unchanged ("a\rb\n"), not the
terminator-normalized "a\nb\n" the claim requires: fgets splits records
only at newlines, so the mid-file "\r" never delimits a record and is
never stripped. -/
theorem round_trip_cr_not_record_break :
    single_terminated ['a', '\r', 'b', '\n'] ∧
    spec_normalize ['a', '\r', 'b', '\n'] = ['a', '\n', 'b', '\n'] ∧
    save_file (load_file ['a', '\r', 'b', '\n'] 0 empty_doc).1.lines =
      ['a', '\r', 'b', '\n'] ∧
    save_file (load_file ['a', '\r', 'b', '\n'] 0 empty_doc).1.lines ≠
      spec_normalize ['a', '\r', 'b', '\n'] := by
  refine ⟨by decide, by decide, ?_, ?_⟩ <;> decide

/-- C8 amended: for a file that is a sequence of records each terminated
by a single newline (record bodies contain no newline and fit the
4096-byte read buffer), loading with load_file and saving the unmodified
buffer with save_file reproduces the content byte-for-byte; a final
record terminated by a lone carriage return instead has that terminator
normalized to a newline.  (A carriage-return-terminated record anywhere
else is not split off by the loader, as the counterexample shows.) -/
theorem round_trip_newline_terminated (bodies : List (List Char))
    (h : ∀ b ∈ bodies, '\n' ∉ b ∧ b.length ≤ 4094) :
    save_file (load_file (records_of bodies) 0 empty_doc).1.lines =
      records_of bodies ∧
    (∀ b' : List Char, '\n' ∉ b' → b'.length ≤ 4094 →
      save_file (load_file (records_of bodies ++ b' ++ ['\r']) 0
          empty_doc).1.lines =
        records_of bodies ++ b' ++ ['\n']) := by
  have hmap : ∀ tail : List (List Char),
      ((bodies.map (fun l => l ++ ['\n'])) ++ tail).map strip_term =
        bodies ++ tail.map strip_term := by
    intro tail
    rw [List.map_append, List.map_map]
    congr 1
    rw [show strip_term ∘ (fun l => l ++ ['\n']) = fun l => l from ?_]
    · exact List.map_id bodies
    · funext l
      exact strip_term_concat l '\n' (Or.inl rfl)
  constructor
  · rw [show records_of bodies = records_of bodies ++ [] by simp,
      load_file_empty, split_records_flat bodies [] h]
    simp only [split_records]
    rw [show split_records_fuel (List.length []) [] = [] from rfl]
    have := hmap []
    simp only [List.append_nil, List.map_nil] at this ⊢
    rw [this]
    rfl
  · intro b' hn' hl'
    rw [List.append_assoc, load_file_empty,
      split_records_flat bodies (b' ++ ['\r']) h]
    have hterm : split_records (b' ++ ['\r']) = [b' ++ ['\r']] := by
      apply split_records_unterminated
      · simp
      · intro hm
        rcases List.mem_append.mp hm with hm | hm
        · exact hn' hm
        · simp at hm
      · simp; omega
    rw [hterm, hmap [b' ++ ['\r']]]
    simp only [List.map_cons, List.map_nil]
    rw [strip_term_concat b' '\r' (Or.inr rfl)]
    unfold save_file records_of
    rw [List.map_append, List.flatten_append]
    simp [List.append_assoc]

theorem mode_update_status (s : EdState) : (update_status s).mode = s.mode :=
  rfl

theorem mode_line_shift_reduce (c : Int) (s : EdState) :
    (line_shift_reduce c s).mode = s.mode := by
  unfold line_shift_reduce; split <;> rfl

theorem mode_line_shift_increase (c : Int) (s : EdState) :
    (line_shift_increase c s).mode = s.mode := rfl

theorem mode_do_cursor_left (s : EdState) :
    (do_cursor_left s).mode = s.mode := by
  unfold do_cursor_left
  split
  · split
    · exact mode_line_shift_reduce 1 s
    · rfl
  · rfl

theorem mode_do_cursor_right (s : EdState) :
    (do_cursor_right s).mode = s.mode := by
  unfold do_cursor_right
  split
  · rfl
  · split
    · split <;> rfl
    · split <;> rfl

theorem mode_do_cursor_up (s : EdState) :
    (do_cursor_up s).mode = s.mode := by
  unfold do_cursor_up
  split
  · rfl
  · split
    · rfl
    · dsimp only
      split_ifs <;> rfl

theorem mode_do_cursor_down (s : EdState) :
    (do_cursor_down s).mode = s.mode := by
  unfold do_cursor_down
  split
  · rfl
  · split
    · rfl
    · dsimp only
      split_ifs <;> rfl

theorem mode_do_del_under_crsr (left : Bool) (s : EdState) :
    (do_del_under_crsr left s).1.mode = s.mode := by
  unfold do_del_under_crsr set_cur_text line_shift_reduce
  dsimp only
  split_ifs <;> rfl

theorem mode_insert_char (c : Char) (s : EdState) :
    (insert_char c s).mode = s.mode := by
  unfold insert_char set_cur_text line_shift_increase
  dsimp only
  split_ifs <;> rfl

theorem mode_edit_backspace (s : EdState) :
    (edit_backspace s).mode = s.mode := by
  unfold edit_backspace
  split
  · rw [mode_do_del_under_crsr]
  · rfl

theorem mode_go_to_start_of_next_line (s : EdState) :
    (go_to_start_of_next_line s).mode = s.mode :=
  mode_do_cursor_down s

theorem mode_destroy_line_ed (i : Nat) (s : EdState) :
    (destroy_line_ed i s).mode = s.mode := by
  unfold destroy_line_ed
  split <;> rfl

theorem mode_edit_newline (s : EdState) :
    (edit_newline s).mode = s.mode := by
  unfold edit_newline
  dsimp only
  split
  · rfl
  · rw [mode_go_to_start_of_next_line]
    split <;> rfl

theorem mode_dd_loop (n : Nat) :
    ∀ s : EdState, (dd_loop n s).1.mode = s.mode := by
  induction n with
  | zero => intro s; rfl
  | succ i ih =>
    intro s
    unfold dd_loop
    dsimp only
    split
    · split
      · rw [mode_destroy_line_ed, mode_do_cursor_up]
      · show (destroy_line_ed _ s).mode = s.mode
        rw [mode_destroy_line_ed]
    · rw [ih, mode_destroy_line_ed]

theorem mode_do_dd (n : Int) (s : EdState) : (do_dd n s).mode = s.mode := by
  unfold do_dd
  dsimp only
  split
  · show (dd_loop _ s).1.mode = s.mode
    rw [mode_dd_loop]
  · rw [mode_dd_loop]

theorem mode_x_loop (n : Nat) : ∀ s : EdState, (x_loop n s).mode = s.mode := by
  induction n with
  | zero => intro s; rfl
  | succ i ih =>
    intro s
    unfold x_loop
    dsimp only
    split
    · rw [mode_do_del_under_crsr]
    · rw [ih, mode_do_del_under_crsr]

theorem mode_bigx_loop (n : Nat) :
    ∀ s : EdState, (bigx_loop n s).mode = s.mode := by
  induction n with
  | zero => intro s; rfl
  | succ i ih =>
    intro s
    unfold bigx_loop
    dsimp only
    split
    · rfl
    · split
      · rw [mode_do_del_under_crsr]
      · rw [ih, mode_do_del_under_crsr]

/-- C10: the editor never enters replace mode: from any of main's start
states, through every do_cmd and edit_mode dispatch, vi_mode never
equals MODE_REPLACE, so the replace-mode branch of insert_char is dead
code. -/
theorem replace_mode_unreachable (s : EdState) (h : Reachable s) :
    s.mode ≠ MODE_REPLACE := by
  induction h with
  | start_empty cols rows _ _ =>
      simp [base_state, MODE_COMMAND, MODE_REPLACE]
  | start_new cols rows name _ _ _ =>
      simp [base_state, MODE_COMMAND, MODE_REPLACE]
  | start_load cols rows name content _ _ _ _ =>
      simp [base_state, MODE_COMMAND, MODE_REPLACE]
  | step _ hstep ih =>
    cases hstep with
    | key_hash h0 => rw [cmd_key_hash, mode_update_status]; exact ih
    | key_dd n h0 => rw [cmd_dd, mode_update_status, mode_do_dd]; exact ih
    | key_a h0 =>
      rw [cmd_key_a, mode_update_status, mode_do_cursor_right]
      simp [ MODE_INSERT, MODE_REPLACE]
    | key_i h0 =>
      rw [cmd_key_i, mode_update_status]
      simp [ MODE_INSERT, MODE_REPLACE]
    | key_h h0 => rw [cmd_key_h, mode_update_status, mode_do_cursor_left]
                  exact ih
    | key_j h0 => rw [cmd_key_j, mode_update_status, mode_do_cursor_down]
                  exact ih
    | key_k h0 => rw [cmd_key_k, mode_update_status, mode_do_cursor_up]
                  exact ih
    | key_l h0 => rw [cmd_key_l, mode_update_status, mode_do_cursor_right]
                  exact ih
    | key_o h0 =>
      unfold cmd_key_o
      split
      · exact ih
      · rw [mode_update_status]
        simp [ MODE_INSERT, MODE_REPLACE]
    | key_p h0 => rw [cmd_key_p, mode_update_status]; exact ih
    | key_x n h0 => rw [cmd_x, mode_update_status, mode_x_loop]; exact ih
    | key_bigx n h0 =>
      rw [cmd_bigx, mode_update_status, mode_bigx_loop]; exact ih
    | key_unknown c h0 => rw [cmd_unknown, mode_update_status]; exact ih
    | key_cancel h0 => rw [cmd_cancel, mode_update_status]; exact ih
    | colon_none h0 => rw [colon_cancel, mode_update_status]; exact ih
    | colon_wq_fail h0 hf =>
      rw [colon_wq_nofile, mode_update_status]; exact ih
    | colon_w_fail h0 hf =>
      rw [colon_w_nofile, mode_update_status]; exact ih
    | colon_w_err h0 => rw [colon_w_error, mode_update_status]; exact ih
    | colon_other h0 => rw [colon_unknown, mode_update_status]; exact ih
    | ed_char c h0 =>
      unfold edit_key_char
      split
      · rw [mode_update_status]; exact ih
      · rw [mode_update_status, mode_insert_char]; exact ih
    | ed_backspace h0 => rw [mode_edit_backspace]; exact ih
    | ed_newline h0 => rw [mode_edit_newline]; exact ih
    | ed_escape h0 =>
      rw [edit_escape, mode_update_status]
      simp [ MODE_COMMAND, MODE_REPLACE]

/-- C4 counterexample: the claim's cursor invariant already fails in the
editor's start state with an empty buffer (reachable after a single j
keystroke, which is a boundary no-op): the cursor rests at column 1 of a
line of length 0 in command mode, so column + shift exceeds the line
length. -/
theorem cursor_invariant_fails_on_empty_line :
    Reachable (cmd_key_j (base_state 80 24 ⟨[[]], 1⟩ "" "")) ∧
    ¬ cursor_spec_inv (cmd_key_j (base_state 80 24 ⟨[[]], 1⟩ "" "")) := by
  constructor
  · exact Reachable.step
      (Reachable.start_empty 80 24 (by decide) (by decide))
      (Step.key_j (by decide))
  · decide

/-- C4 amended: the bound column + shift at most the current line length
is not a global reachable-state invariant (it fails on an empty line at
rest, and dd never re-clamps the column), but every completed vertical
cursor move restores it: after do_cursor_up or do_cursor_down actually
moves to a neighbouring line, column + shift is at most the destination
line's length. -/
theorem vertical_moves_restore_cursor_bound (s : EdState) :
    (2 ≤ s.curLine → s.curLine ≤ (s.doc.lines.length : Int) →
      (do_cursor_up s).crsrX + (do_cursor_up s).lineShift ≤ up_dest_len s) ∧
    (s.curLine ≠ s.doc.count → 1 ≤ s.curLine →
      s.curLine < (s.doc.lines.length : Int) →
      (do_cursor_down s).crsrX + (do_cursor_down s).lineShift ≤
        down_dest_len s) := by
  constructor
  · intro h1 h2
    unfold do_cursor_up
    rw [if_neg (by omega : ¬ s.curLine = 1), if_neg (not_not_intro ⟨h1, h2⟩)]
    dsimp only
    split_ifs <;> simp only [up_dest_len, cur_len, cur_text] at * <;> omega
  · intro h1 h2 h3
    unfold do_cursor_down
    rw [if_neg h1, if_neg (not_not_intro ⟨h2, h3⟩)]
    dsimp only
    split_ifs <;> simp only [down_dest_len, cur_len, cur_text] at * <;> omega

/-- Witness for C4's amended statement: an up move from line 2 onto a
shorter line and a down move from a long line onto a shorter one both
land with column + shift within the destination length. -/
theorem vertical_moves_restore_cursor_bound_witness :
    ((do_cursor_up
        { base_state 80 24 ⟨[['a'], ['x', 'y', 'z']], 2⟩ "" "" with
          curLine := 2, crsrY := 2, crsrX := 3 }).crsrX +
      (do_cursor_up
        { base_state 80 24 ⟨[['a'], ['x', 'y', 'z']], 2⟩ "" "" with
          curLine := 2, crsrY := 2, crsrX := 3 }).lineShift ≤
      up_dest_len
        { base_state 80 24 ⟨[['a'], ['x', 'y', 'z']], 2⟩ "" "" with
          curLine := 2, crsrY := 2, crsrX := 3 }) ∧
    ((do_cursor_down
        { base_state 80 24 ⟨[['x', 'y', 'z'], ['a']], 2⟩ "" "" with
          crsrX := 3 }).crsrX +
      (do_cursor_down
        { base_state 80 24 ⟨[['x', 'y', 'z'], ['a']], 2⟩ "" "" with
          crsrX := 3 }).lineShift ≤
      down_dest_len
        { base_state 80 24 ⟨[['x', 'y', 'z'], ['a']], 2⟩ "" "" with
          crsrX := 3 }) :=
  ⟨(vertical_moves_restore_cursor_bound _).1 (by decide) (by decide),
   (vertical_moves_restore_cursor_bound _).2 (by decide) (by decide)
     (by decide)⟩

/-- C5 counterexample: moving up onto an empty line leaves the column at
0, not the claimed 1; and moving down onto a line shorter than the
current shift sets the shift to length - 1 (here 2), not the claimed 0. -/
theorem vertical_clamp_not_as_specified :
    up_dest_len
      { base_state 80 24 ⟨[[], ['a']], 2⟩ "" "" with
        curLine := 2, crsrY := 2 } = 0 ∧
    (do_cursor_up
      { base_state 80 24 ⟨[[], ['a']], 2⟩ "" "" with
        curLine := 2, crsrY := 2 }).crsrX = 0 ∧
    (do_cursor_up
      { base_state 80 24 ⟨[[], ['a']], 2⟩ "" "" with
        curLine := 2, crsrY := 2 }).crsrX ≠ 1 ∧
    down_dest_len
      { base_state 5 24
          ⟨[['0', '1', '2', '3', '4', '5', '6', '7', '8', '9'],
            ['a', 'b', 'c']], 2⟩ "" "" with
        crsrX := 5, lineShift := 5 } = 3 ∧
    (do_cursor_down
      { base_state 5 24
          ⟨[['0', '1', '2', '3', '4', '5', '6', '7', '8', '9'],
            ['a', 'b', 'c']], 2⟩ "" "" with
        crsrX := 5, lineShift := 5 }).lineShift = 2 ∧
    (do_cursor_down
      { base_state 5 24
          ⟨[['0', '1', '2', '3', '4', '5', '6', '7', '8', '9'],
            ['a', 'b', 'c']], 2⟩ "" "" with
        crsrX := 5, lineShift := 5 }).lineShift ≠ 0 := by
  refine ⟨?_, ?_, ?_, ?_, ?_, ?_⟩ <;> decide

/-- C5 amended: a completed do_cursor_up always resets the shift to 0
and clamps the column to the destination line's length (which yields
column 0, not 1, on an empty destination); a completed do_cursor_down
whose destination is shorter than column + shift clamps so that
column + shift equals the destination length with column at least 1,
setting the shift to length - 1 (not 0) whenever the destination length
is at most the old shift. -/
theorem vertical_clamp_exact (s : EdState) :
    (2 ≤ s.curLine → s.curLine ≤ (s.doc.lines.length : Int) →
      (do_cursor_up s).lineShift = 0 ∧
      (do_cursor_up s).crsrX = min s.crsrX (up_dest_len s)) ∧
    (s.curLine ≠ s.doc.count → 1 ≤ s.curLine →
      s.curLine < (s.doc.lines.length : Int) →
      down_dest_len s < s.crsrX + s.lineShift →
      (do_cursor_down s).crsrX + (do_cursor_down s).lineShift =
        down_dest_len s ∧
      1 ≤ (do_cursor_down s).crsrX ∧
      (down_dest_len s ≤ s.lineShift →
        (do_cursor_down s).lineShift = down_dest_len s - 1)) := by
  constructor
  · intro h1 h2
    unfold do_cursor_up
    rw [if_neg (by omega : ¬ s.curLine = 1), if_neg (not_not_intro ⟨h1, h2⟩)]
    dsimp only
    split_ifs <;> refine ⟨?_, ?_⟩ <;>
      simp only [up_dest_len, cur_len, cur_text, min_def] at * <;>
        split_ifs at * <;> omega
  · intro h1 h2 h3 h4
    unfold do_cursor_down
    rw [if_neg h1, if_neg (not_not_intro ⟨h2, h3⟩)]
    dsimp only
    split_ifs <;> refine ⟨?_, ?_, fun hle => ?_⟩ <;>
      simp only [down_dest_len, cur_len, cur_text] at * <;> omega

/-- Witness for C5's amended statement at the two moves of C4's
witness. -/
theorem vertical_clamp_exact_witness :
    ((do_cursor_up
        { base_state 80 24 ⟨[['a'], ['x', 'y', 'z']], 2⟩ "" "" with
          curLine := 2, crsrY := 2, crsrX := 3 }).lineShift = 0 ∧
      (do_cursor_up
        { base_state 80 24 ⟨[['a'], ['x', 'y', 'z']], 2⟩ "" "" with
          curLine := 2, crsrY := 2, crsrX := 3 }).crsrX =
        min 3 (up_dest_len
          { base_state 80 24 ⟨[['a'], ['x', 'y', 'z']], 2⟩ "" "" with
            curLine := 2, crsrY := 2, crsrX := 3 })) ∧
    ((do_cursor_down
        { base_state 80 24 ⟨[['x', 'y', 'z'], ['a']], 2⟩ "" "" with
          crsrX := 3 }).crsrX +
      (do_cursor_down
        { base_state 80 24 ⟨[['x', 'y', 'z'], ['a']], 2⟩ "" "" with
          crsrX := 3 }).lineShift =
      down_dest_len
        { base_state 80 24 ⟨[['x', 'y', 'z'], ['a']], 2⟩ "" "" with
          crsrX := 3 }) :=
  ⟨(vertical_clamp_exact _).1 (by decide) (by decide),
   ((vertical_clamp_exact _).2 (by decide) (by decide) (by decide)
     (by decide)).1⟩

/-- C6 counterexample: with the cursor on the last line of a three-line
buffer, 2dd deletes one line (via the last-line special case) and then
stops, but the loop breaks before decrementing its counter, so the
completed-versus-requested report is never produced: the status bar
shows the empty command-mode legend, not a Deleted message. -/
theorem dd_boundary_report_omitted :
    (cmd_dd 2
      { base_state 80 24 ⟨[['a'], ['b'], ['c']], 3⟩ "" "" with
        curLine := 3, crsrY := 3 }).doc.lines = [['a'], ['b']] ∧
    (cmd_dd 2
      { base_state 80 24 ⟨[['a'], ['b'], ['c']], 3⟩ "" "" with
        curLine := 3, crsrY := 3 }).doc.count = 2 ∧
    (cmd_dd 2
      { base_state 80 24 ⟨[['a'], ['b'], ['c']], 3⟩ "" "" with
        curLine := 3, crsrY := 3 }).displayed = "" ∧
    (cmd_dd 2
      { base_state 80 24 ⟨[['a'], ['b'], ['c']], 3⟩ "" "" with
        curLine := 3, crsrY := 3 }).displayed ≠ "Deleted 1 lines at 2" := by
  refine ⟨?_, ?_, ?_, ?_⟩ <;> decide

/-- C6 amended: repeat counts clamp to at least 1 and multiply dd, x and
X; the delete loops stop early at buffer boundaries; and scenario E
holds as stated: 3dd on a five-line buffer at line 1 leaves two lines
and reports "Deleted 3 lines at 1".  The completed-versus-requested
report is produced only when the loop counter ends below the request,
which omits (or undercounts) the report when the loop breaks at the
last line, as the counterexample shows. -/
theorem dd_counts_and_scenario_e :
    clamp_count 0 = 1 ∧ clamp_count (-7) = 1 ∧ clamp_count 3 = 3 ∧
    (cmd_dd 3 scenario_e_state).doc.lines.length = 2 ∧
    (cmd_dd 3 scenario_e_state).doc.count = 2 ∧
    (cmd_dd 3 scenario_e_state).displayed = "Deleted 3 lines at 1" ∧
    (cmd_dd 9 scenario_e_state).doc.lines = [[]] ∧
    (cmd_dd 9 scenario_e_state).doc.count = 1 ∧
    (cmd_x 2 char_delete_state).doc.lines = [['c']] ∧
    (cmd_x 9 char_delete_state).doc.lines = [[]] ∧
    (cmd_bigx 2 { char_delete_state with crsrX := 3 }).doc.lines =
      [['c']] := by
  refine ⟨?_, ?_, ?_, ?_, ?_, ?_, ?_, ?_, ?_, ?_, ?_⟩ <;> decide

theorem insertAt_set_comm (l : List Line) :
    ∀ (i : Nat) (a b : Line), i < l.length →
      (insertAt (i + 1) a l).set i b = insertAt (i + 1) a (l.set i b) := by
  induction l with
  | nil => intro i a b hi; simp at hi
  | cons x xs ih =>
    intro i a b hi
    cases i with
    | zero => rfl
    | succ j =>
      simp only [insertAt, List.set]
      rw [ih j a b (by simpa using hi)]

theorem set_getD_self (l : List Line) :
    ∀ i : Nat, i < l.length → l.set i (l.getD i []) = l := by
  induction l with
  | nil => intro i hi; simp at hi
  | cons x xs ih =>
    intro i hi
    cases i with
    | zero => rfl
    | succ j =>
      simp only [List.getD_cons_succ, List.set]
      rw [ih j (by simpa using hi)]

theorem doc_do_cursor_down (s : EdState) : (do_cursor_down s).doc = s.doc := by
  unfold do_cursor_down
  split
  · rfl
  · split
    · rfl
    · dsimp only
      split_ifs <;> rfl

theorem curLine_do_cursor_down (s : EdState) (h1 : s.curLine ≠ s.doc.count)
    (h2 : 1 ≤ s.curLine) (h3 : s.curLine < (s.doc.lines.length : Int)) :
    (do_cursor_down s).curLine = s.curLine + 1 := by
  unfold do_cursor_down
  rw [if_neg h1, if_neg (not_not_intro ⟨h2, h3⟩)]
  dsimp only
  split_ifs <;> rfl

theorem go_to_fields (x : EdState) (h1 : x.curLine ≠ x.doc.count)
    (h2 : 1 ≤ x.curLine) (h3 : x.curLine < (x.doc.lines.length : Int)) :
    (go_to_start_of_next_line x).doc = x.doc ∧
    (go_to_start_of_next_line x).curLine = x.curLine + 1 ∧
    (go_to_start_of_next_line x).crsrX = 1 ∧
    (go_to_start_of_next_line x).lineShift = 0 :=
  ⟨doc_do_cursor_down x, curLine_do_cursor_down x h1 h2 h3, rfl, rfl⟩

/-- C7: a newline in insert mode splits the current line at the logical
cursor position shift + column - 1: the tail from that position becomes
a new line inserted immediately after the current one, the current line
keeps exactly the text before the split point, the line count grows by
one, and the cursor ends at column 1 of the new line (now the current
line) with shift 0. -/
theorem newline_splits_line (s : EdState)
    (hwf : s.doc.count = s.doc.lines.length)
    (hcl1 : 1 ≤ s.curLine)
    (hcl2 : s.curLine ≤ (s.doc.lines.length : Int)) :
    (edit_newline s).doc.lines =
      insertAt s.curLine.toNat
        ((cur_text s).drop (s.lineShift + s.crsrX - 1).toNat)
        (s.doc.lines.set (s.curLine - 1).toNat
          ((cur_text s).take (s.lineShift + s.crsrX - 1).toNat)) ∧
    (edit_newline s).curLine = s.curLine + 1 ∧
    (edit_newline s).crsrX = 1 ∧
    (edit_newline s).lineShift = 0 ∧
    (edit_newline s).doc.count = s.doc.count + 1 := by
  have hlen : (1 : Int) ≤ (s.doc.lines.length : Int) := le_trans hcl1 hcl2
  have hne : s.doc.lines ≠ [] := by
    intro h0
    rw [h0] at hlen
    simp at hlen
  have hwalk : walk_to_line s.curLine s.doc.lines =
      some (s.curLine - 1).toNat := by
    unfold walk_to_line
    rw [if_neg (by push_neg; exact ⟨by omega, hne⟩), if_pos ⟨hcl1, hcl2⟩]
  have hidx : (s.curLine - 1).toNat + 1 = s.curLine.toNat := by omega
  have hilt : (s.curLine - 1).toNat < s.doc.lines.length := by omega
  have halloc : alloc_new_line s.curLine
      (some ((cur_text s).drop (s.lineShift + s.crsrX - 1).toNat)) s.doc =
      some ⟨insertAt s.curLine.toNat
        ((cur_text s).drop (s.lineShift + s.crsrX - 1).toNat) s.doc.lines,
        s.doc.count + 1⟩ := by
    unfold alloc_new_line
    rw [if_neg (by omega : ¬ s.doc.count < s.curLine)]
    dsimp only
    rw [if_pos (by omega : (0 : Int) < s.curLine), hwalk]
    dsimp only
    rw [hidx]
    rfl
  by_cases hfrag :
      (cur_text s).drop (s.lineShift + s.crsrX - 1).toNat = []
  · have hk : (cur_text s).length ≤ (s.lineShift + s.crsrX - 1).toNat :=
      List.drop_eq_nil_iff.mp hfrag
    have htake : (cur_text s).take (s.lineShift + s.crsrX - 1).toNat =
        cur_text s := List.take_of_length_le hk
    unfold edit_newline
    dsimp only
    rw [halloc]
    dsimp only
    rw [if_pos hfrag]
    have hset : s.doc.lines.set (s.curLine - 1).toNat
        ((cur_text s).take (s.lineShift + s.crsrX - 1).toNat) =
        s.doc.lines := by
      rw [htake]
      simp only [cur_text]
      exact set_getD_self s.doc.lines (s.curLine - 1).toNat hilt
    have hg := go_to_fields
      { s with doc := ⟨insertAt s.curLine.toNat
          ((cur_text s).drop (s.lineShift + s.crsrX - 1).toNat) s.doc.lines,
          s.doc.count + 1⟩ }
      (by dsimp only; omega)
      (by dsimp only; omega)
      (by dsimp only
          rw [insertAt_length]
          push_cast
          omega)
    refine ⟨?_, ?_, hg.2.2.1, hg.2.2.2, ?_⟩
    · rw [hg.1, hset]
    · rw [hg.2.1]
    · rw [hg.1]
  · unfold edit_newline
    dsimp only
    rw [halloc]
    dsimp only
    rw [if_neg hfrag]
    have hg := go_to_fields
      (set_cur_text ((cur_text s).take (s.lineShift + s.crsrX - 1).toNat)
        { s with doc := ⟨insertAt s.curLine.toNat
            ((cur_text s).drop (s.lineShift + s.crsrX - 1).toNat)
            s.doc.lines,
            s.doc.count + 1⟩ })
      (by simp only [set_cur_text]; omega)
      (by simp only [set_cur_text]; omega)
      (by simp only [set_cur_text]
          rw [List.length_set, insertAt_length]
          push_cast
          omega)
    refine ⟨?_, ?_, hg.2.2.1, hg.2.2.2, ?_⟩
    · rw [hg.1]
      simp only [set_cur_text]
      rw [← hidx, insertAt_set_comm s.doc.lines (s.curLine - 1).toNat _ _
        hilt]
    · rw [hg.2.1]
      simp only [set_cur_text]
    · rw [hg.1]
      simp only [set_cur_text]

/-- Witness for C7 at scenario D: on the line "ab" with the cursor at
column 2 in insert mode, a newline yields the lines "a" and "b" with the
cursor at column 1 of line 2 and no shift. -/
theorem newline_splits_line_witness :
    (edit_newline
      { base_state 80 24 ⟨[['a', 'b']], 1⟩ "" "" with
        crsrX := 2, mode := MODE_INSERT }).doc.lines = [['a'], ['b']] ∧
    (edit_newline
      { base_state 80 24 ⟨[['a', 'b']], 1⟩ "" "" with
        crsrX := 2, mode := MODE_INSERT }).curLine = 2 ∧
    (edit_newline
      { base_state 80 24 ⟨[['a', 'b']], 1⟩ "" "" with
        crsrX := 2, mode := MODE_INSERT }).crsrX = 1 ∧
    (edit_newline
      { base_state 80 24 ⟨[['a', 'b']], 1⟩ "" "" with
        crsrX := 2, mode := MODE_INSERT }).lineShift = 0 ∧
    (edit_newline
      { base_state 80 24 ⟨[['a', 'b']], 1⟩ "" "" with
        crsrX := 2, mode := MODE_INSERT }).doc.count = 2 := by
  have h := newline_splits_line
    { base_state 80 24 ⟨[['a', 'b']], 1⟩ "" "" with
      crsrX := 2, mode := MODE_INSERT } (by decide) (by decide) (by decide)
  obtain ⟨h1, h2, h3, h4, h5⟩ := h
  refine ⟨?_, ?_, h3, h4, ?_⟩
  · rw [h1]; decide
  · rw [h2]; decide
  · rw [h5]; decide

/-- C9 counterexample: the status message produced by :wq with no file
name starts with a capital C ("Cannot save: no file name specified"),
not the lowercase "cannot save: no file name specified" the claim
quotes. -/
theorem wq_message_capitalized :
    (colon_wq_nofile (base_state 80 24 ⟨[[]], 1⟩ "" "")).displayed =
      "Cannot save: no file name specified" ∧
    (colon_wq_nofile (base_state 80 24 ⟨[[]], 1⟩ "" "")).displayed ≠
      "cannot save: no file name specified" := by
  constructor <;> decide

/-- C9 amended: issuing :wq with no file name set makes the save fail
with the status message "Cannot save: no file name specified" (capital
C); the dispatcher stays in the state machine (the exiting colon paths
have no successor state), the mode remains Command, and the buffer and
cursor are untouched. -/
theorem wq_no_filename_behavior (s : EdState) (hf : s.curfile = "")
    (hm : s.mode = MODE_COMMAND) :
    Step s (colon_wq_nofile s) ∧
    (colon_wq_nofile s).displayed = "Cannot save: no file name specified" ∧
    (colon_wq_nofile s).doc = s.doc ∧
    (colon_wq_nofile s).mode = MODE_COMMAND ∧
    (colon_wq_nofile s).curLine = s.curLine ∧
    (colon_wq_nofile s).crsrX = s.crsrX ∧
    (colon_wq_nofile s).curfile = s.curfile :=
  ⟨Step.colon_wq_fail hm hf, rfl, rfl, hm, rfl, rfl, rfl⟩

/-- Witness for C9's amended statement at the no-file start state. -/
theorem wq_no_filename_behavior_witness :
    Step (base_state 80 24 ⟨[[]], 1⟩ "" "")
      (colon_wq_nofile (base_state 80 24 ⟨[[]], 1⟩ "" "")) ∧
    (colon_wq_nofile (base_state 80 24 ⟨[[]], 1⟩ "" "")).doc =
      (base_state 80 24 ⟨[[]], 1⟩ "" "").doc ∧
    (colon_wq_nofile (base_state 80 24 ⟨[[]], 1⟩ "" "")).mode =
      MODE_COMMAND :=
  ⟨(wq_no_filename_behavior (base_state 80 24 ⟨[[]], 1⟩ "" "") rfl rfl).1,
   (wq_no_filename_behavior (base_state 80 24 ⟨[[]], 1⟩ "" "") rfl rfl).2.2.1,
   (wq_no_filename_behavior (base_state 80 24 ⟨[[]], 1⟩ "" "")
     rfl rfl).2.2.2.1⟩

/-- Witness for C10 at the start state of an editor run with no file
argument. -/
theorem replace_mode_unreachable_witness :
    (base_state 80 24 ⟨[[]], 1⟩ "" "").mode ≠ MODE_REPLACE :=
  replace_mode_unreachable _ (Reachable.start_empty 80 24 (by decide)
    (by decide))

/-- Witness for C8's amended statement: a two-record file round-trips
exactly, and appending a carriage-return-terminated final record gets
that terminator rewritten to a newline. -/
theorem round_trip_newline_terminated_witness :
    save_file (load_file (records_of [['h', 'i'], []]) 0 empty_doc).1.lines =
      records_of [['h', 'i'], []] ∧
    save_file (load_file (records_of [['h', 'i'], []] ++ ['z'] ++ ['\r']) 0
        empty_doc).1.lines =
      records_of [['h', 'i'], []] ++ ['z'] ++ ['\n'] := by
  have h := round_trip_newline_terminated [['h', 'i'], []] (by decide)
  exact ⟨h.1, h.2 ['z'] (by decide) (by decide)⟩

end VeeEye
